import Mathlib

/-!
Shallow embedding of the byteboard_hardware firmware
(src/byteboard_hardware.ino and src/CommandConverter.cpp).

Floating-point values are modelled as `Option ℚ`: `some q` is a finite
float value, `none` is a non-finite value (NaN or an infinity).  The IEEE
comparisons the source performs on a NaN (`==`, `<`, `>`) all return
`false`, which is what the `none` branches of the comparison functions
below encode.  Machine integers (`long`, `int`) are modelled as `Int`;
where the source compares a signed 32-bit value against the unsigned
literal `0xFFFFFFFF`, the C usual-arithmetic-conversions reduce both
sides modulo 2^32, which the embedding makes explicit.
-/

/-- A floating-point value: `some q` finite, `none` non-finite (NaN/∞). -/
abbrev Flt := Option ℚ

/-- IEEE addition; any non-finite operand is conservatively non-finite. -/
def fadd : Flt → Flt → Flt
  | some a, some b => some (a + b)
  | _, _ => none

/-- IEEE division; division by zero or by/of a non-finite value is
non-finite (the source never distinguishes the resulting ∞ from NaN). -/
def fdiv : Flt → Flt → Flt
  | some a, some b => if b = 0 then none else some (a / b)
  | _, _ => none

namespace CommandConverter

/-- The `Commands` enum class of src/CommandConverter.h: implicit values
NOTHING = 0, ACKNOWLEDGE = 1, TARE = 2, CALIBRATE = 3, TIMED_MEASURE = 4. -/
inductive Commands where
  | NOTHING
  | ACKNOWLEDGE
  | TARE
  | CALIBRATE
  | TIMED_MEASURE
deriving DecidableEq, Repr

/-- Numeric value of each enumerator (implicit C++ enum-class numbering). -/
def Commands.toNat : Commands → Nat
  | .NOTHING => 0
  | .ACKNOWLEDGE => 1
  | .TARE => 2
  | .CALIBRATE => 3
  | .TIMED_MEASURE => 4

/-- The `stringToCommandMap` of src/CommandConverter.cpp, as an
association list (std::map lookup is keyed string equality). -/
def stringToCommandMap : List (String × Commands) :=
  [ ("nothing", .NOTHING),
    ("acknowledge", .ACKNOWLEDGE),
    ("tare", .TARE),
    ("calibrate", .CALIBRATE),
    ("timed_measure", .TIMED_MEASURE) ]

/-- `stringToCommand` of src/CommandConverter.cpp: look the string up in
the map; on a miss, throw `std::invalid_argument` (modelled as `.error`). -/
def stringToCommand (command : String) : Except String Commands :=
  match stringToCommandMap.find? (fun p => p.1 == command) with
  | some p => .ok p.2
  | none => .error ("Invalid command string: " ++ command)

end CommandConverter

namespace Byteboard

/-- The `Commands` enum of src/byteboard_hardware.ino (uint8_t values):
NOTHING = 0, TARE = 1, CALIBRATE = 2, TIMED_MEASURE = 3. -/
inductive Commands where
  | NOTHING
  | TARE
  | CALIBRATE
  | TIMED_MEASURE
deriving DecidableEq, Repr

/-- Explicit numeric value of each enumerator, as written in the source. -/
def Commands.toNat : Commands → Nat
  | .NOTHING => 0
  | .TARE => 1
  | .CALIBRATE => 2
  | .TIMED_MEASURE => 3

/-- EEPROM locations from src/byteboard_hardware.ino. -/
def LOCATION_CALIBRATION_FACTOR : Nat := 0

/-- EEPROM location of the zero offset (comment in the source: must be
more than 4 away from the previous spot). -/
def LOCATION_ZERO_OFFSET : Nat := 10

/-- One EEPROM byte: either never written (erased, reads as 0xFF), or the
i-th byte of the encoding of a stored 4-byte float, or the i-th byte of
the encoding of a stored 4-byte long. -/
inductive EByte where
  | erased
  | floatByte (v : Flt) (i : Nat)
  | longByte (v : Int) (i : Nat)
deriving DecidableEq

/-- The EEPROM is a byte-addressed store. -/
def EEPROM := Nat → EByte

/-- The fully erased (never written) EEPROM: every byte reads 0xFF. -/
def erasedEEPROM : EEPROM := fun _ => .erased

/-- `EEPROM.put` of a 4-byte float at `addr`: occupies `[addr, addr+4)`. -/
def putFloat (addr : Nat) (v : Flt) (e : EEPROM) : EEPROM :=
  fun a => if addr ≤ a ∧ a < addr + 4 then .floatByte v (a - addr) else e a

/-- `EEPROM.put` of a 4-byte long at `addr`: occupies `[addr, addr+4)`. -/
def putLong (addr : Nat) (v : Int) (e : EEPROM) : EEPROM :=
  fun a => if addr ≤ a ∧ a < addr + 4 then .longByte v (a - addr) else e a

/-- `EEPROM.get` of a float at `addr`.  Four bytes from one float write
decode back to that float.  Four erased bytes are the bit pattern
0xFFFFFFFF, which is an IEEE-754 NaN, hence `none`; any other (mixed)
pattern is an unspecified value, also modelled as non-finite. -/
def getFloat (addr : Nat) (e : EEPROM) : Flt :=
  match e addr with
  | .floatByte v 0 =>
      if e (addr + 1) = .floatByte v 1 ∧ e (addr + 2) = .floatByte v 2 ∧
          e (addr + 3) = .floatByte v 3 then v else none
  | _ => none

/-- `EEPROM.get` of a long at `addr`.  Four bytes from one long write
decode back to that long; four erased bytes are 0xFFFFFFFF, which as a
signed 32-bit long is -1; any other pattern is unspecified (0 here). -/
def getLong (addr : Nat) (e : EEPROM) : Int :=
  match e addr with
  | .longByte v 0 =>
      if e (addr + 1) = .longByte v 1 ∧ e (addr + 2) = .longByte v 2 ∧
          e (addr + 3) = .longByte v 3 then v else 0
  | .erased =>
      if e (addr + 1) = .erased ∧ e (addr + 2) = .erased ∧
          e (addr + 3) = .erased then -1 else 0
  | _ => 0

/-- The in-memory state of the NAU7802 driver that this sketch uses:
its zero offset (a long) and calibration factor (a float). -/
structure ScaleState where
  zeroOffset : Int
  calibrationFactor : Flt
deriving DecidableEq

/-- The C comparison `settingCalibrationFactor == 0xFFFFFFFF` on a float:
the unsigned literal converts to the float 2^32 = 4294967296, and a NaN
(or infinity) compares unequal to everything. -/
def floatEqAllOnes (x : Flt) : Bool :=
  match x with
  | some q => q == (4294967296 : ℚ)
  | none => false

/-- The C comparison `settingZeroOffset == 0xFFFFFFFF` on a 32-bit long:
both operands convert to unsigned 32-bit, so the test is on the value
modulo 2^32. -/
def longEqAllOnes (z : Int) : Bool :=
  z % 4294967296 == 4294967295

/-- The C comparison `settingCalibrationFactor < 0.1`: false on NaN. -/
def floatLtTenth (x : Flt) : Bool :=
  match x with
  | some q => decide (q < 1 / 10)
  | none => false

/-- Result of `readSystemSettings`: the values passed to the driver, the
`settingsDetected` flag and the (possibly repaired) EEPROM contents. -/
structure SysRead where
  calibrationFactor : Flt
  zeroOffset : Int
  settingsDetected : Bool
  eeprom : EEPROM

/-- `recordSystemSettings` of src/byteboard_hardware.ino: put the
calibration factor at offset 0, then the zero offset at offset 10. -/
def recordSystemSettings (s : ScaleState) (e : EEPROM) : EEPROM :=
  putLong LOCATION_ZERO_OFFSET s.zeroOffset
    (putFloat LOCATION_CALIBRATION_FACTOR s.calibrationFactor e)

/-- `readSystemSettings` of src/byteboard_hardware.ino: read each field,
substitute and write back a default when the field compares equal to
0xFFFFFFFF, pass the values to the driver, and set `settingsDetected`
false when the factor is below 0.1 or the offset equals 1000. -/
def readSystemSettings (e : EEPROM) : SysRead :=
  let cf0 := getFloat LOCATION_CALIBRATION_FACTOR e
  let cf := if floatEqAllOnes cf0 then some 0 else cf0
  let e1 := if floatEqAllOnes cf0 then
      putFloat LOCATION_CALIBRATION_FACTOR (some 0) e else e
  let zo0 := getLong LOCATION_ZERO_OFFSET e1
  let zo := if longEqAllOnes zo0 then 1000 else zo0
  let e2 := if longEqAllOnes zo0 then
      putLong LOCATION_ZERO_OFFSET 1000 e1 else e1
  { calibrationFactor := cf
    zeroOffset := zo
    settingsDetected := !(floatLtTenth cf || zo == 1000)
    eeprom := e2 }

/-- Modelled from the spec: `myScale.calculateZeroOffset(n)` of the vendor
NAU7802 driver (not in this repository) — "acquires n raw samples from the
amplifier driver, averages them, sets zeroOffset to the average".  The
averaged raw sample is supplied as `avg`. -/
def calculateZeroOffset (avg : Int) (s : ScaleState) : ScaleState :=
  { s with zeroOffset := avg }

/-- Modelled from the spec: `myScale.calculateCalibrationFactor(w, n)` of
the vendor NAU7802 driver (not in this repository) — "computes
scaleFactor = (averageRawSample - zeroOffset) / knownWeight".  The
averaged raw sample is supplied as `avg`; the division is IEEE float
division, non-finite when `w = 0`. -/
def calculateCalibrationFactor (avg : Int) (w : ℚ) (s : ScaleState) :
    ScaleState :=
  { s with
    calibrationFactor := fdiv (some ((avg : ℚ) - (s.zeroOffset : ℚ))) (some w) }

/-- `calibrateScale` of src/byteboard_hardware.ino, with the interactive
console I/O abstracted into its data: tare over 64 readings (average
`tareAvg`), read the operator's weight `w` from serial, compute the new
calibration factor from the averaged loaded reading `calAvg`, and commit
both values to EEPROM.  The source performs no validation of `w`. -/
def calibrateScale (tareAvg calAvg : Int) (w : ℚ) (s : ScaleState)
    (e : EEPROM) : ScaleState × EEPROM :=
  let s1 := calculateZeroOffset tareAvg s
  let s2 := calculateCalibrationFactor calAvg w s1
  (s2, recordSystemSettings s2 e)

/-- The weight conversion performed per sample in `timedMeasure`
(src/byteboard_hardware.ino line 314):
`(measurements[j] - zeroOffset) / calibrationFactor`. -/
def computeWeight (raw zeroOffset : Int) (calibrationFactor : Flt) : Flt :=
  fdiv (some ((raw : ℚ) - (zeroOffset : ℚ))) calibrationFactor

/-- The data the dispatcher's scale operations consume during one tick:
averaged readings for a direct tare and for the two calibration steps,
the operator's serial weight entry, and a timed measurement's samples. -/
structure LoopEnv where
  tareAvg : Int
  calTareAvg : Int
  calAvg : Int
  weightOnScale : ℚ
  measurements : List Int

/-- The mutable state the `loop` of src/byteboard_hardware.ino touches:
the two connection flags, the last command byte written by the control
characteristic callback, the driver state, the EEPROM, and a count of
`startAdvertising` calls. -/
structure SysState where
  deviceConnected : Bool
  oldDeviceConnected : Bool
  command : Nat
  scale : ScaleState
  eeprom : EEPROM
  advertisingRestarts : Nat

/-- The `switch (command)` of `loop`: NOTHING (0) does nothing, TARE (1)
calls `calculateZeroOffset`, CALIBRATE (2) runs `calibrateScale`,
TIMED_MEASURE (3) runs `timedMeasure` (which reads but never writes the
calibration state or the EEPROM), and unknown bytes hit the default
no-op case. -/
def dispatchCommand (env : LoopEnv) (command : Nat) (s : ScaleState)
    (e : EEPROM) : ScaleState × EEPROM :=
  match command with
  | 0 => (s, e)
  | 1 => (calculateZeroOffset env.tareAvg s, e)
  | 2 => calibrateScale env.calTareAvg env.calAvg env.weightOnScale s e
  | 3 => (s, e)
  | _ => (s, e)

/-- One poll tick of `loop`: while connected, dispatch the pending
command; then the edge-triggered disconnect handling (restart
advertising once) and connect handling (record the new flag value). -/
def loopStep (env : LoopEnv) (s : SysState) : SysState :=
  let s1 :=
    if s.deviceConnected then
      let r := dispatchCommand env s.command s.scale s.eeprom
      { s with scale := r.1, eeprom := r.2 }
    else s
  let s2 :=
    if !s1.deviceConnected && s1.oldDeviceConnected then
      { s1 with
        advertisingRestarts := s1.advertisingRestarts + 1,
        oldDeviceConnected := s1.deviceConnected }
    else s1
  if s2.deviceConnected && !s2.oldDeviceConnected then
    { s2 with oldDeviceConnected := s2.deviceConnected }
  else s2

/-- One iteration of the result loop of `timedMeasure`
(src/byteboard_hardware.ino lines 312-319): replace the running maximum
only when the sample's weight strictly exceeds it; a non-finite weight
never compares greater (IEEE comparison involving NaN is false). -/
def maxWeightStep (zeroOffset : Int) (calibrationFactor : Flt) (m : ℚ)
    (raw : Int) : ℚ :=
  match computeWeight raw zeroOffset calibrationFactor with
  | some w => if m < w then w else m
  | none => m

/-- The maximum weight reported by `timedMeasure`: the result loop run
over all samples with `maxWeight` starting at 0.0. -/
def maxWeight (measurements : List Int) (zeroOffset : Int)
    (calibrationFactor : Flt) : ℚ :=
  measurements.foldl (maxWeightStep zeroOffset calibrationFactor) 0

/-- The buffer construction of `setFloatArrayValue`
(src/byteboard_hardware.ino): each float of the input is copied into the
next 4-byte slot while the running sum accumulates, and the sum is
written into the final slot. -/
def packWithChecksum (data : List Flt) (sum : Flt) : List Flt :=
  match data with
  | [] => [sum]
  | x :: xs => x :: packWithChecksum xs (fadd sum x)

/-- `setFloatArrayValue` of src/byteboard_hardware.ino: the float slots
of the value set on the characteristic, paired with `totalLength`, the
byte count passed to `setValue` (`sizeof(float) * length +
sizeof(float)`). -/
def setFloatArrayValue (data : List Flt) : List Flt × Nat :=
  (packWithChecksum data (some 0), 4 * data.length + 4)

/-- A float read back from the EEPROM location it was just written to is
the written value. -/
theorem getFloat_record (s : ScaleState) (e : EEPROM) :
    getFloat LOCATION_CALIBRATION_FACTOR (recordSystemSettings s e)
      = s.calibrationFactor := by
  simp [getFloat, recordSystemSettings, putFloat, putLong,
    LOCATION_CALIBRATION_FACTOR, LOCATION_ZERO_OFFSET]

/-- A long read back from the EEPROM location it was just written to is
the written value. -/
theorem getLong_record (s : ScaleState) (e : EEPROM) :
    getLong LOCATION_ZERO_OFFSET (recordSystemSettings s e)
      = s.zeroOffset := by
  simp [getLong, recordSystemSettings, putFloat, putLong,
    LOCATION_CALIBRATION_FACTOR, LOCATION_ZERO_OFFSET]

end Byteboard

/-- C1: every valid symbolic token decodes to its matching Command, and
every other string fails with the invalid-command error rather than
falling through to NOTHING. -/
theorem c1_stringToCommand_total_on_valid_error_otherwise (s : String)
    (h : s ∉ ["nothing", "acknowledge", "tare", "calibrate", "timed_measure"]) :
    CommandConverter.stringToCommand "nothing" = .ok .NOTHING ∧
    CommandConverter.stringToCommand "acknowledge" = .ok .ACKNOWLEDGE ∧
    CommandConverter.stringToCommand "tare" = .ok .TARE ∧
    CommandConverter.stringToCommand "calibrate" = .ok .CALIBRATE ∧
    CommandConverter.stringToCommand "timed_measure" = .ok .TIMED_MEASURE ∧
    CommandConverter.stringToCommand s =
      .error ("Invalid command string: " ++ s) := by
  simp only [List.mem_cons, List.not_mem_nil, or_false, not_or] at h
  obtain ⟨h1, h2, h3, h4, h5⟩ := h
  refine ⟨rfl, rfl, rfl, rfl, rfl, ?_⟩
  have e1 : ("nothing" == s) = false := by
    exact beq_eq_false_iff_ne.mpr (fun hh => h1 hh.symm)
  have e2 : ("acknowledge" == s) = false := by
    exact beq_eq_false_iff_ne.mpr (fun hh => h2 hh.symm)
  have e3 : ("tare" == s) = false := by
    exact beq_eq_false_iff_ne.mpr (fun hh => h3 hh.symm)
  have e4 : ("calibrate" == s) = false := by
    exact beq_eq_false_iff_ne.mpr (fun hh => h4 hh.symm)
  have e5 : ("timed_measure" == s) = false := by
    exact beq_eq_false_iff_ne.mpr (fun hh => h5 hh.symm)
  simp [CommandConverter.stringToCommand, CommandConverter.stringToCommandMap,
    List.find?, e1, e2, e3, e4, e5]

/-- C2: on an all-erased EEPROM, `readSystemSettings` leaves the
calibration factor as the NaN read from storage (the float never compares
equal to 0xFFFFFFFF, so the default 0 is neither returned nor written
back), while the zero offset is defaulted to 1000 and written back, and
`settingsDetected` ends up false. -/
theorem c2_readSystemSettings_erased_behavior :
    (Byteboard.readSystemSettings Byteboard.erasedEEPROM).calibrationFactor
        = none ∧
    (Byteboard.readSystemSettings Byteboard.erasedEEPROM).calibrationFactor
        ≠ some 0 ∧
    (Byteboard.readSystemSettings Byteboard.erasedEEPROM).zeroOffset = 1000 ∧
    (Byteboard.readSystemSettings Byteboard.erasedEEPROM).settingsDetected
        = false ∧
    (Byteboard.readSystemSettings Byteboard.erasedEEPROM).eeprom
        Byteboard.LOCATION_CALIBRATION_FACTOR = .erased ∧
    (Byteboard.readSystemSettings Byteboard.erasedEEPROM).eeprom
        Byteboard.LOCATION_ZERO_OFFSET = .longByte 1000 0 := by
  refine ⟨rfl, by decide, rfl, rfl, rfl, rfl⟩

/-- C3: the guided calibration step performs no validation of the
operator's weight: with known weight 0 it divides by zero, storing a
non-finite calibration factor, changing the zero offset, and persisting
both to EEPROM instead of failing and leaving the parameters unchanged. -/
theorem c3_calibrateScale_accepts_nonpositive_weight :
    (Byteboard.calibrateScale 100 200 0 ⟨5, some 2⟩
        Byteboard.erasedEEPROM).1.calibrationFactor = none ∧
    (Byteboard.calibrateScale 100 200 0 ⟨5, some 2⟩
        Byteboard.erasedEEPROM).1.zeroOffset = 100 ∧
    (Byteboard.calibrateScale 100 200 0 ⟨5, some 2⟩
        Byteboard.erasedEEPROM).1 ≠ ⟨5, some 2⟩ ∧
    Byteboard.getFloat Byteboard.LOCATION_CALIBRATION_FACTOR
        (Byteboard.calibrateScale 100 200 0 ⟨5, some 2⟩
          Byteboard.erasedEEPROM).2 = none ∧
    Byteboard.getLong Byteboard.LOCATION_ZERO_OFFSET
        (Byteboard.calibrateScale 100 200 0 ⟨5, some 2⟩
          Byteboard.erasedEEPROM).2 = 100 := by
  refine ⟨rfl, rfl, ?_, rfl, rfl⟩
  intro h
  exact Option.noConfusion (congrArg Byteboard.ScaleState.calibrationFactor h)

/-- C4: the per-sample weight is `(raw - zeroOffset) / scaleFactor`, and
whenever the scale factor is finite and nonzero the weight at the zero
offset itself is exactly 0. -/
theorem c4_computeWeight_formula (raw z : Int) (f : ℚ) (hf : f ≠ 0) :
    Byteboard.computeWeight raw z (some f)
        = some (((raw : ℚ) - (z : ℚ)) / f) ∧
    Byteboard.computeWeight z z (some f) = some 0 := by
  constructor
  · simp [Byteboard.computeWeight, fdiv, hf]
  · simp [Byteboard.computeWeight, fdiv, hf]

/-- C4 witness at raw 57683, zero offset 25776, scale factor 2. -/
theorem c4_witness :
    Byteboard.computeWeight 57683 25776 (some 2) = some (31907 / 2) ∧
    Byteboard.computeWeight 25776 25776 (some 2) = some 0 := by
  have h := c4_computeWeight_formula 57683 25776 2 (by norm_num)
  refine ⟨?_, h.2⟩
  rw [h.1]
  norm_num

/-- C5: calibration sets the factor to (average - zeroOffset) / w, so
re-weighing the calibration average returns exactly w; in the worked
scenario (tare 25776, weight 15.2, average 43122) the factor is
43365/38 ≈ 1141.2 and a raw sample of 57683 weighs ≈ 27.96. -/
theorem c5_calibrate_then_weigh (tareAvg calAvg : Int) (w : ℚ)
    (s : Byteboard.ScaleState) (e : Byteboard.EEPROM)
    (hw : w ≠ 0) (hne : calAvg ≠ tareAvg) :
    (Byteboard.calibrateScale tareAvg calAvg w s e).1.calibrationFactor
        = some (((calAvg : ℚ) - (tareAvg : ℚ)) / w) ∧
    Byteboard.computeWeight calAvg
        (Byteboard.calibrateScale tareAvg calAvg w s e).1.zeroOffset
        (Byteboard.calibrateScale tareAvg calAvg w s e).1.calibrationFactor
        = some w ∧
    (Byteboard.calibrateScale 25776 43122 (76 / 5) s
        e).1.calibrationFactor = some (43365 / 38) ∧
    |(43365 : ℚ) / 38 - 5706 / 5| < 1 / 10 ∧
    Byteboard.computeWeight 57683 25776 (some (43365 / 38))
        = some (1212466 / 43365) ∧
    |(1212466 : ℚ) / 43365 - 699 / 25| < 1 / 100 := by
  have hd : ((calAvg : ℚ) - (tareAvg : ℚ)) ≠ 0 := by
    rw [sub_ne_zero]
    exact_mod_cast hne
  have hq : ((calAvg : ℚ) - (tareAvg : ℚ)) / w ≠ 0 := div_ne_zero hd hw
  have hcf : (Byteboard.calibrateScale tareAvg calAvg w s e).1.calibrationFactor
      = some (((calAvg : ℚ) - (tareAvg : ℚ)) / w) := by
    simp [Byteboard.calibrateScale, Byteboard.calculateZeroOffset,
      Byteboard.calculateCalibrationFactor, fdiv, hw]
  have hzo : (Byteboard.calibrateScale tareAvg calAvg w s e).1.zeroOffset
      = tareAvg := rfl
  refine ⟨hcf, ?_, ?_, ?_, ?_, ?_⟩
  · rw [hcf, hzo]
    simp only [Byteboard.computeWeight, fdiv]
    rw [if_neg hq]
    rw [div_div_eq_mul_div, mul_comm, mul_div_assoc, div_self hd, mul_one]
  · simp [Byteboard.calibrateScale, Byteboard.calculateZeroOffset,
      Byteboard.calculateCalibrationFactor, fdiv]
    norm_num
  · rw [abs_lt]
    constructor <;> norm_num
  · norm_num [Byteboard.computeWeight, fdiv]
  · rw [abs_lt]
    constructor <;> norm_num

/-- C5 witness at the worked scenario inputs. -/
theorem c5_witness :
    (Byteboard.calibrateScale 25776 43122 (76 / 5) ⟨0, some 0⟩
        Byteboard.erasedEEPROM).1.calibrationFactor = some (43365 / 38) ∧
    Byteboard.computeWeight 43122
        (Byteboard.calibrateScale 25776 43122 (76 / 5) ⟨0, some 0⟩
          Byteboard.erasedEEPROM).1.zeroOffset
        (Byteboard.calibrateScale 25776 43122 (76 / 5) ⟨0, some 0⟩
          Byteboard.erasedEEPROM).1.calibrationFactor
        = some (76 / 5) := by
  have h := c5_calibrate_then_weigh 25776 43122 (76 / 5) ⟨0, some 0⟩
    Byteboard.erasedEEPROM (by norm_num) (by decide)
  exact ⟨h.2.2.1, h.2.1⟩

/-- C6 counterexample: persisting zero offset -1 (whose byte pattern is
the erased sentinel 0xFFFFFFFF) and loading does not return it — the
loader substitutes the default 1000. -/
theorem c6_roundtrip_counterexample :
    ¬((Byteboard.readSystemSettings (Byteboard.recordSystemSettings
        ⟨-1, some 1200⟩ Byteboard.erasedEEPROM)).zeroOffset = -1) ∧
    (Byteboard.readSystemSettings (Byteboard.recordSystemSettings
        ⟨-1, some 1200⟩ Byteboard.erasedEEPROM)).zeroOffset = 1000 := by
  have h : (Byteboard.readSystemSettings (Byteboard.recordSystemSettings
      ⟨-1, some 1200⟩ Byteboard.erasedEEPROM)).zeroOffset = 1000 := by
    simp [Byteboard.readSystemSettings, Byteboard.getFloat_record,
      Byteboard.getLong_record, Byteboard.floatEqAllOnes,
      Byteboard.longEqAllOnes]
  refine ⟨?_, h⟩
  rw [h]
  decide

/-- C6 amended: for every 32-bit zero offset other than -1 and every
calibration factor other than the float 2^32 (the values the loader's
erased-pattern tests fire on), persist followed by load returns the
identical values; the two fields occupy the disjoint byte ranges
[0, 4) and [10, 14), and no other EEPROM byte is touched. -/
theorem c6_persist_load_roundtrip (cf : Flt) (zo : Int)
    (e : Byteboard.EEPROM) (h1 : -(2 ^ 31) ≤ zo) (h2 : zo < 2 ^ 31)
    (h3 : zo ≠ -1) (h4 : cf ≠ some 4294967296) :
    (Byteboard.readSystemSettings (Byteboard.recordSystemSettings
        ⟨zo, cf⟩ e)).calibrationFactor = cf ∧
    (Byteboard.readSystemSettings (Byteboard.recordSystemSettings
        ⟨zo, cf⟩ e)).zeroOffset = zo ∧
    Byteboard.LOCATION_CALIBRATION_FACTOR + 4
        ≤ Byteboard.LOCATION_ZERO_OFFSET ∧
    (∀ a : Nat,
      ¬(Byteboard.LOCATION_CALIBRATION_FACTOR ≤ a ∧
          a < Byteboard.LOCATION_CALIBRATION_FACTOR + 4) →
      ¬(Byteboard.LOCATION_ZERO_OFFSET ≤ a ∧
          a < Byteboard.LOCATION_ZERO_OFFSET + 4) →
      Byteboard.recordSystemSettings ⟨zo, cf⟩ e a = e a) := by
  have hf : Byteboard.getFloat Byteboard.LOCATION_CALIBRATION_FACTOR
      (Byteboard.recordSystemSettings ⟨zo, cf⟩ e) = cf :=
    Byteboard.getFloat_record ⟨zo, cf⟩ e
  have hl : Byteboard.getLong Byteboard.LOCATION_ZERO_OFFSET
      (Byteboard.recordSystemSettings ⟨zo, cf⟩ e) = zo :=
    Byteboard.getLong_record ⟨zo, cf⟩ e
  have hfe : Byteboard.floatEqAllOnes cf = false := by
    cases cf with
    | none => rfl
    | some q =>
        have hq : q ≠ 4294967296 := fun hh => h4 (by rw [hh])
        simpa [Byteboard.floatEqAllOnes] using hq
  have hle : Byteboard.longEqAllOnes zo = false := by
    have hp31 : (2 : Int) ^ 31 = 2147483648 := by norm_num
    rw [hp31] at h2
    rw [hp31] at h1
    simp only [Byteboard.longEqAllOnes, beq_eq_false_iff_ne]
    clear hf hl
    omega
  refine ⟨?_, ?_, by norm_num [Byteboard.LOCATION_CALIBRATION_FACTOR,
    Byteboard.LOCATION_ZERO_OFFSET], ?_⟩
  · simp [Byteboard.readSystemSettings, hf, hfe, hl, hle]
  · simp [Byteboard.readSystemSettings, hf, hfe, hl, hle]
  · intro a ha hb
    simp only [Byteboard.LOCATION_CALIBRATION_FACTOR,
      Byteboard.LOCATION_ZERO_OFFSET] at ha hb
    simp only [Byteboard.recordSystemSettings, Byteboard.putLong,
      Byteboard.putFloat, Byteboard.LOCATION_CALIBRATION_FACTOR,
      Byteboard.LOCATION_ZERO_OFFSET]
    rw [if_neg (by omega), if_neg (by omega)]

/-- C6 witness: round trip at zero offset 25776 and factor 43365/38. -/
theorem c6_witness :
    (Byteboard.readSystemSettings (Byteboard.recordSystemSettings
        ⟨25776, some (43365 / 38)⟩
        Byteboard.erasedEEPROM)).calibrationFactor = some (43365 / 38) ∧
    (Byteboard.readSystemSettings (Byteboard.recordSystemSettings
        ⟨25776, some (43365 / 38)⟩
        Byteboard.erasedEEPROM)).zeroOffset = 25776 := by
  have h := c6_persist_load_roundtrip (some (43365 / 38)) 25776
    Byteboard.erasedEEPROM (by norm_num) (by norm_num) (by norm_num)
    (by simp; norm_num)
  exact ⟨h.1, h.2.1⟩

/-- C1 witness at the concrete invalid token "reset". -/
theorem c1_witness :
    CommandConverter.stringToCommand "tare" = .ok .TARE ∧
    CommandConverter.stringToCommand "reset" =
      .error ("Invalid command string: " ++ "reset") := by
  have h := c1_stringToCommand_total_on_valid_error_otherwise "reset" (by decide)
  exact ⟨h.2.2.1, h.2.2.2.2.2⟩

/-- C7: on a poll tick with the device not connected, no command —
including a pending TARE — touches the driver state, the EEPROM, or the
pending command byte. -/
theorem c7_disconnected_tick_has_no_scale_effect (env : Byteboard.LoopEnv)
    (s : Byteboard.SysState) (h : s.deviceConnected = false) :
    (Byteboard.loopStep env s).scale = s.scale ∧
    (Byteboard.loopStep env s).eeprom = s.eeprom ∧
    (Byteboard.loopStep env s).command = s.command := by
  cases hold : s.oldDeviceConnected <;>
    simp [Byteboard.loopStep, h, hold]

/-- C7 witness: a disconnected tick with a pending TARE (command byte 1)
leaves the scale state unchanged. -/
theorem c7_witness :
    (Byteboard.loopStep ⟨7, 8, 9, 1, []⟩
        ⟨false, true, 1, ⟨5, some 2⟩, Byteboard.erasedEEPROM, 0⟩).scale
      = ⟨5, some 2⟩ ∧
    (Byteboard.loopStep ⟨7, 8, 9, 1, []⟩
        ⟨false, true, 1, ⟨5, some 2⟩, Byteboard.erasedEEPROM, 0⟩).command
      = 1 := by
  have h := c7_disconnected_tick_has_no_scale_effect ⟨7, 8, 9, 1, []⟩
    ⟨false, true, 1, ⟨5, some 2⟩, Byteboard.erasedEEPROM, 0⟩ rfl
  exact ⟨h.1, h.2.2⟩

/-- The copy loop of `setFloatArrayValue` produces the input floats in
order followed by the accumulated sum. -/
theorem packWithChecksum_eq (xs : List Flt) (s : Flt) :
    Byteboard.packWithChecksum xs s = xs ++ [xs.foldl fadd s] := by
  induction xs generalizing s with
  | nil => rfl
  | cons x xs ih => simp [Byteboard.packWithChecksum, ih]

/-- C8: the characteristic value built from N measurements is exactly
those N 4-byte floats in order followed by one 4-byte float holding
their sum, and the byte length passed to setValue is (N+1)*4. -/
theorem c8_setFloatArrayValue_layout (data : List Flt) :
    (Byteboard.setFloatArrayValue data).1
        = data ++ [data.foldl fadd (some 0)] ∧
    (Byteboard.setFloatArrayValue data).2 = (data.length + 1) * 4 := by
  constructor
  · exact packWithChecksum_eq data (some 0)
  · simp [Byteboard.setFloatArrayValue]
    ring

/-- C9: the string decoder's enum (ACKNOWLEDGE = 1, TARE = 2,
CALIBRATE = 3, TIMED_MEASURE = 4) is off by one from the dispatch
loop's raw-byte enum (TARE = 1, CALIBRATE = 2, TIMED_MEASURE = 3), so
the numeric value of stringToCommand "tare" is dispatched as the
CALIBRATE branch by the byte-path switch. -/
theorem c9_enum_mismatch_tare_dispatches_calibrate :
    CommandConverter.Commands.toNat .ACKNOWLEDGE = 1 ∧
    CommandConverter.Commands.toNat .TARE
        = Byteboard.Commands.toNat .TARE + 1 ∧
    CommandConverter.Commands.toNat .CALIBRATE
        = Byteboard.Commands.toNat .CALIBRATE + 1 ∧
    CommandConverter.Commands.toNat .TIMED_MEASURE
        = Byteboard.Commands.toNat .TIMED_MEASURE + 1 ∧
    Byteboard.Commands.toNat .TARE = 1 ∧
    Byteboard.Commands.toNat .CALIBRATE = 2 ∧
    Byteboard.Commands.toNat .TIMED_MEASURE = 3 ∧
    CommandConverter.stringToCommand "tare" = .ok .TARE ∧
    CommandConverter.Commands.toNat .TARE
        = Byteboard.Commands.toNat .CALIBRATE ∧
    (∀ (env : Byteboard.LoopEnv) (s : Byteboard.ScaleState)
        (e : Byteboard.EEPROM),
      Byteboard.dispatchCommand env (CommandConverter.Commands.toNat .TARE)
          s e
        = Byteboard.calibrateScale env.calTareAvg env.calAvg
            env.weightOnScale s e) := by
  refine ⟨rfl, rfl, rfl, rfl, rfl, rfl, rfl, rfl, rfl, fun env s e => rfl⟩

/-- Each iteration of the result loop never decreases the running
maximum. -/
theorem maxWeightStep_ge (z : Int) (cf : Flt) (m : ℚ) (raw : Int) :
    m ≤ Byteboard.maxWeightStep z cf m raw := by
  unfold Byteboard.maxWeightStep
  cases Byteboard.computeWeight raw z cf with
  | none => exact le_refl m
  | some w =>
      dsimp only
      split
      · exact le_of_lt (by assumption)
      · exact le_refl m

/-- The result loop never decreases the running maximum. -/
theorem foldl_maxWeightStep_ge (z : Int) (cf : Flt) (ms : List Int)
    (m : ℚ) : m ≤ ms.foldl (Byteboard.maxWeightStep z cf) m := by
  induction ms generalizing m with
  | nil => exact le_refl m
  | cons x xs ih => exact le_trans (maxWeightStep_ge z cf m x) (ih _)

/-- When every sample's weight is finite and negative, the result loop
keeps a nonnegative running maximum unchanged. -/
theorem foldl_maxWeightStep_const (z : Int) (cf : Flt) (m : ℚ)
    (hm : 0 ≤ m) :
    ∀ ms : List Int,
      (∀ raw ∈ ms, ∃ w : ℚ,
        Byteboard.computeWeight raw z cf = some w ∧ w < 0) →
      ms.foldl (Byteboard.maxWeightStep z cf) m = m := by
  intro ms
  induction ms with
  | nil => intro _; rfl
  | cons x xs ih =>
      intro hneg
      obtain ⟨w, hw, hwneg⟩ := hneg x (List.mem_cons_self x xs)
      have hstep : Byteboard.maxWeightStep z cf m x = m := by
        simp only [Byteboard.maxWeightStep, hw]
        exact if_neg (not_lt.mpr (le_of_lt (lt_of_lt_of_le hwneg hm)))
      rw [List.foldl_cons, hstep]
      exact ih (fun raw hr => hneg raw (List.mem_cons_of_mem x hr))

/-- C10: the reported maximum weight is always at least 0 (it starts at
0.0 and only strictly larger weights replace it), and when every
sample's weight is negative the reported maximum is 0, not the largest
sample weight. -/
theorem c10_maxWeight_nonneg_and_zero_when_all_negative (ms : List Int)
    (z : Int) (cf : Flt) :
    0 ≤ Byteboard.maxWeight ms z cf ∧
    ((∀ raw ∈ ms, ∃ w : ℚ,
        Byteboard.computeWeight raw z cf = some w ∧ w < 0) →
      Byteboard.maxWeight ms z cf = 0) := by
  constructor
  · exact foldl_maxWeightStep_ge z cf ms 0
  · intro hneg
    exact foldl_maxWeightStep_const z cf 0 (le_refl 0) ms hneg

/-- C10 witness: a session whose single sample weighs -776 reports a
maximum of 0. -/
theorem c10_witness :
    0 ≤ Byteboard.maxWeight [25000] 25776 (some 1) ∧
    Byteboard.maxWeight [25000] 25776 (some 1) = 0 := by
  have h := c10_maxWeight_nonneg_and_zero_when_all_negative [25000]
    25776 (some 1)
  refine ⟨h.1, h.2 ?_⟩
  intro raw hr
  rw [List.mem_singleton] at hr
  subst hr
  refine ⟨-776, ?_, by norm_num⟩
  norm_num [Byteboard.computeWeight, fdiv]
